import Mathlib

/-! Shallow embedding of `vendor/github.com/containers/common/pkg/config/defaultLibpodConfig.go`
(the runtime-directory resolver `getRuntimeDir`, the temp-dir default
`defaultTmpDir`, and the conmon version gate `probeConmon`), together with
theorems checking the specification's claims about them. -/

namespace LibpodConfig

/-- Model of the Go `error` values produced or passed around by
`defaultLibpodConfig.go`.  Constructors mirror the distinct error values the
source can return: the package-level `ErrConmonOutdated` and `ErrInvalidArg`
(lines 60-62), errors built with `fmt.Errorf`/`errors.Errorf`, `strconv`
`NumError` values returned by `Atoi`, opaque invocation errors produced by
`exec.Cmd.Run`, and errors built with `pkg/errors.Wrap`/`Wrapf` (an
annotation message plus a cause). -/
inductive GoError : Type where
  | conmonOutdated : GoError
  | invalidArg : GoError
  | errorf (msg : String) : GoError
  | numError (input : String) : GoError
  | invocation (msg : String) : GoError
  | wrapped (msg : String) (cause : GoError) : GoError
deriving DecidableEq

/-- Model of `github.com/pkg/errors.Wrap`: it returns nil when the error
being wrapped is nil, otherwise it annotates the cause with a message.
A Go `error` is modelled as `Option GoError`, `none` being nil. -/
def errWrap (err : Option GoError) (msg : String) : Option GoError :=
  match err with
  | none => none
  | some e => some (GoError.wrapped msg e)

/-- Source line 23: the major version required for conmon. -/
def _conmonMinMajorVersion : Int := 2

/-- Source line 26: the minor version required for conmon. -/
def _conmonMinMinorVersion : Int := 0

/-- Source line 29: the sub-minor version required for conmon. -/
def _conmonMinPatchVersion : Int := 1

/-- Source line 33: message used when the expected version format of conmon
has changed. -/
def _conmonVersionFormatErr : String := "conmon version changed format"

/-- Backtracking helper for the `\d+` pieces of the version pattern
(source line 232).  Go's `regexp` package returns, for submatches, the match
a backtracking (leftmost-first, Perl-style) search would find, so a greedy
`\d+` tries the longest digit run first and shortens it on failure.
`tryLens cs cont k` tries `cont` on the split of `cs` after `j` characters,
for `j = k` down to `j = 1`, returning the first success.  It is called
with `k` equal to the length of the maximal digit prefix of `cs`, so every
tried capture is a nonempty digit string. -/
def tryLens {α : Type} (cs : List Char) (cont : List Char → List Char → Option α) :
    Nat → Option α
  | 0 => none
  | k + 1 =>
    match cont (cs.take (k + 1)) (cs.drop (k + 1)) with
    | some r => some r
    | none => tryLens cs cont k

/-- Model of one unescaped `.` in the version pattern (source line 232):
in Go's regexp syntax an unescaped dot matches any single character other
than a newline. -/
def trySep {α : Type} (cs : List Char) (k : List Char → Option α) : Option α :=
  match cs with
  | [] => none
  | c :: rest => if c = '\n' then none else k rest

/-- Length of the maximal digit prefix, the starting point for a greedy
`\d+` (`\d` in Go RE2 syntax is exactly the ASCII digits 0-9). -/
def digitsLen (cs : List Char) : Nat := (cs.takeWhile Char.isDigit).length

/-- The final `(?P<Patch>\d+)` of the pattern on source line 232: greedy
with nothing after it, so the Patch capture is the full digit run at the
current position, and the pattern fails if it is empty. -/
def patchCont (ma mi rest4 : List Char) : Option (List Char × List Char × List Char) :=
  if rest4.takeWhile Char.isDigit = [] then none
  else some (ma, mi, rest4.takeWhile Char.isDigit)

/-- The second unescaped `.` of the pattern followed by the Patch group. -/
def minorSeps (ma mi rest3 : List Char) : Option (List Char × List Char × List Char) :=
  trySep rest3 (patchCont ma mi)

/-- The `(?P<Minor>\d+)` group followed by the rest of the pattern: a
greedy backtracking `\d+` whose continuation is the second separator and
the Patch group. -/
def minorPart (ma rest2 : List Char) : Option (List Char × List Char × List Char) :=
  tryLens rest2 (minorSeps ma) (digitsLen rest2)

/-- The first unescaped `.` of the pattern followed by everything after
it. -/
def majorSep (ma rest1 : List Char) : Option (List Char × List Char × List Char) :=
  trySep rest1 (minorPart ma)

/-- Model of matching `(?P<Major>\d+).(?P<Minor>\d+).(?P<Patch>\d+)`
(the part of the pattern on source line 232 after the literal prefix)
against the start of `cs`, returning the three captured groups of the
leftmost-first match: a greedy backtracking Major group whose continuation
is the first separator and the rest of the pattern. -/
def matchTriple (cs : List Char) : Option (List Char × List Char × List Char) :=
  tryLens cs majorSep (digitsLen cs)

/-- The literal text at the start of the anchored pattern on source
line 232, `^conmon version `. -/
def conmonVersionLit : List Char := "conmon version ".toList

/-- Model of `r.FindStringSubmatch(out.String())` on source line 234 for
the anchored pattern of line 232: `some` of the three captured groups when
the pattern matches (the source's `len(matches) == 4` case, since the
pattern has exactly three capture groups), `none` when it does not match
(`matches` nil, length 0).  The `^` anchor forces the match to start at the
beginning of the output. -/
def findConmonSubmatch (out : String) : Option (List Char × List Char × List Char) :=
  let cs := out.toList
  if cs.take conmonVersionLit.length = conmonVersionLit then
    matchTriple (cs.drop conmonVersionLit.length)
  else none

/-- Largest value of Go's 64-bit `int`, the parse bound of `strconv.Atoi`. -/
def goMaxInt : Nat := 9223372036854775807

/-- Value of a digit string read in base 10. -/
def digitsToNat (cs : List Char) : Nat :=
  cs.foldl (fun a c => a * 10 + (c.toNat - 48)) 0

/-- Model of `strconv.Atoi` (source lines 238, 249, 260) on the captured
groups.  The captures are always nonempty ASCII digit strings (they are
matched by `\d+`), so on this domain `Atoi` fails exactly when the value
overflows Go's 64-bit `int` (`strconv.ErrRange`); on any other string the
model also fails, as `Atoi` does on a non-numeric string. -/
def goAtoi (cs : List Char) : Except GoError Int :=
  if cs ≠ [] ∧ cs.all Char.isDigit = true then
    if digitsToNat cs ≤ goMaxInt then Except.ok (Int.ofNat (digitsToNat cs))
    else Except.error (GoError.numError (String.mk cs))
  else Except.error (GoError.numError (String.mk cs))

/-- Model of `probeConmon` (source lines 224-272).  The subprocess
invocation `cmd.Run()` is modelled by the argument: `Except.error e` means
the invocation failed with error `e` (the source returns it at line 230
before looking at the output), `Except.ok out` means it succeeded with
captured standard output `out`.  The returned `Option GoError` is the Go
return value, `none` being nil.  Note that on a pattern mismatch the source
executes `errors.Wrap(err, _conmonVersionFormatErr)` at line 236 where
`err` is necessarily nil (a non-nil `err` from `cmd.Run` returned at
line 230), and `errors.Wrap` of nil is nil. -/
def probeConmon (run : Except GoError String) : Option GoError :=
  match run with
  | Except.error e => some e
  | Except.ok out =>
    match findConmonSubmatch out with
    | none => errWrap none _conmonVersionFormatErr
    | some (ma, mi, pa) =>
      match goAtoi ma with
      | Except.error e => errWrap (some e) _conmonVersionFormatErr
      | Except.ok major =>
        if major < _conmonMinMajorVersion then some GoError.conmonOutdated
        else if major > _conmonMinMajorVersion then none
        else
          match goAtoi mi with
          | Except.error e => errWrap (some e) _conmonVersionFormatErr
          | Except.ok minor =>
            if minor < _conmonMinMinorVersion then some GoError.conmonOutdated
            else if minor > _conmonMinMinorVersion then none
            else
              match goAtoi pa with
              | Except.error e => errWrap (some e) _conmonVersionFormatErr
              | Except.ok patch =>
                if patch < _conmonMinPatchVersion then some GoError.conmonOutdated
                else if patch > _conmonMinPatchVersion then none
                else none

/-- Lexicographic greater-or-equal on version triples: `(a1,a2,a3)` is at
least `(b1,b2,b3)`. -/
def lexGE (a1 a2 a3 b1 b2 b3 : Int) : Prop :=
  b1 < a1 ∨ (a1 = b1 ∧ (b2 < a2 ∨ (a2 = b2 ∧ b3 ≤ a3)))

instance (a1 a2 a3 b1 b2 b3 : Int) : Decidable (lexGE a1 a2 a3 b1 b2 b3) := by
  unfold lexGE
  infer_instance

/-- Result of `os.Stat` on a path, restricted to the two fields the source
reads at lines 186 and 196: the owning uid (`st.Sys().(*syscall.Stat_t).Uid`)
and the permission bits `st.Mode().Perm()` (the low nine mode bits). -/
structure StatInfo : Type where
  uid : Nat
  perm : Nat
deriving DecidableEq

/-- Result of `os.Mkdir` at line 157: success, an error for which
`os.IsExist` is true, or any other error. -/
inductive MkdirResult : Type where
  | ok : MkdirResult
  | errExist : MkdirResult
  | errOther (msg : String) : MkdirResult
deriving DecidableEq

/-- The process environment as the source observes it: the environment
variables it reads, the identity calls, and the outcome of each filesystem
call it can make.  `xdgRuntimeDir` and `home` are `os.Getenv` results (the
empty string when unset), `uid` is `unshare.GetRootlessUID()`, `euid` is
`os.Geteuid()`, `tempDir` is `os.TempDir()`; `stat` returns `none` when
`os.Stat` errors; `evalSymlinks` models `filepath.EvalSymlinks`; `mkdir`
and `chmod` model `os.Mkdir` and `os.Chmod` (a `chmod` result of `none` is
success). -/
structure World : Type where
  xdgRuntimeDir : String
  home : String
  uid : Nat
  euid : Nat
  tempDir : String
  stat : String → Option StatInfo
  evalSymlinks : String → Except GoError String
  mkdir : String → Nat → MkdirResult
  chmod : String → Nat → Option GoError

/-- Observable side effects of the source, in execution order: environment
reads and filesystem operations. -/
inductive Effect : Type where
  | getenv (name : String) : Effect
  | mkdirAll (path : String) (perm : Nat) : Effect
  | stat (path : String) : Effect
  | evalSymlinks (path : String) : Effect
  | mkdir (path : String) (perm : Nat) : Effect
  | chmod (path : String) (perm : Nat) : Effect
deriving DecidableEq

/-- An effect is a filesystem operation (directory creation, stat, symlink
resolution, or permission change); an environment read is not. -/
def Effect.isFsOp : Effect → Bool
  | .getenv _ => false
  | _ => true

/-- The acceptance check applied to a candidate directory at source
lines 186 and 196: `os.Stat` succeeded, the directory's owner uid equals
the current effective uid, and its permission bits are exactly 0700
(in decimal, 448). -/
def statAccepts (w : World) (p : String) : Bool :=
  match w.stat p with
  | some st => st.uid == w.euid && st.perm == 448
  | none => false

/-- The step-two candidate `filepath.Join("/run", "user", uid)` of source
line 181.  `filepath.Join` on these clean components is plain
slash-separated concatenation. -/
def runUserDir (w : World) : String := "/run/user/" ++ toString w.uid

/-- The step-three candidate `filepath.Join(os.TempDir(),
fmt.Sprintf("run-%s", uid))` of source line 191, assuming a clean
`os.TempDir()` value (no trailing slash), where `filepath.Join` is
slash-separated concatenation. -/
def tmpRunDir (w : World) : String := w.tempDir ++ "/run-" ++ toString w.uid

/-- Model of the closure passed to `rootlessRuntimeDirOnce.Do` at source
lines 177-214: the one-time resolution of the rootless runtime directory.
Returns the resolved directory or the error assigned to
`rootlessRuntimeDirError`, together with the trace of effects in execution
order.  `os.MkdirAll` failures at lines 182 and 192 are only logged, so
only their occurrence is recorded; the result does not depend on them.
`os.TempDir` reads the TMPDIR environment variable, recorded as a `getenv`
effect. -/
def runtimeDirBody (w : World) : Except GoError String × List Effect :=
  let d0 := w.xdgRuntimeDir
  let r1 : String × List Effect :=
    if d0 = "" then
      ((if statAccepts w (runUserDir w) then runUserDir w else ""),
        [Effect.mkdirAll (runUserDir w) 448, Effect.stat (runUserDir w)])
    else (d0, [])
  let r2 : String × List Effect :=
    if r1.1 = "" then
      ((if statAccepts w (tmpRunDir w) then tmpRunDir w else ""),
        [Effect.getenv "TMPDIR", Effect.mkdirAll (tmpRunDir w) 448,
         Effect.stat (tmpRunDir w)])
    else (r1.1, [])
  if r2.1 = "" then
    if w.home = "" then
      (Except.error (GoError.errorf "neither XDG_RUNTIME_DIR nor HOME was set non-empty"),
       Effect.getenv "XDG_RUNTIME_DIR" :: (r1.2 ++ r2.2 ++ [Effect.getenv "HOME"]))
    else
      match w.evalSymlinks w.home with
      | Except.error e =>
          (Except.error (GoError.wrapped ("cannot resolve " ++ w.home) e),
           Effect.getenv "XDG_RUNTIME_DIR" ::
             (r1.2 ++ r2.2 ++ [Effect.getenv "HOME", Effect.evalSymlinks w.home]))
      | Except.ok resolvedHome =>
          (Except.ok (resolvedHome ++ "/rundir"),
           Effect.getenv "XDG_RUNTIME_DIR" ::
             (r1.2 ++ r2.2 ++ [Effect.getenv "HOME", Effect.evalSymlinks w.home]))
  else
    (Except.ok r2.1, Effect.getenv "XDG_RUNTIME_DIR" :: (r1.2 ++ r2.2))

/-- The process-wide state behind `getRuntimeDir` (source lines 168-171):
whether `rootlessRuntimeDirOnce` has fired, and the package-level
`rootlessRuntimeDir` string (zero value: the empty string).  The error of a
failed resolution is NOT part of this state: in the source,
`rootlessRuntimeDirError` is a variable local to each `getRuntimeDir` call
(line 175), captured by the once-closure. -/
structure RuntimeDirState : Type where
  onceDone : Bool
  cachedDir : String
deriving DecidableEq

/-- The state at process start: the once-guard has not fired and the
package-level string holds its zero value. -/
def initialRuntimeDirState : RuntimeDirState := ⟨false, ""⟩

/-- Model of `getRuntimeDir` (source lines 174-220).  State passing makes
the `sync.Once` explicit: if the once-guard already fired, the closure does
not run, the call-local `rootlessRuntimeDirError` stays nil, and the cached
string is returned with a nil error.  On the first call the closure runs:
on success it stores the directory in the package-level variable; on
failure it sets only the call-local error variable, leaving the cached
string at its previous (zero) value. -/
def getRuntimeDir (w : World) (st : RuntimeDirState) :
    (String × Option GoError) × List Effect × RuntimeDirState :=
  if st.onceDone then ((st.cachedDir, none), [], st)
  else
    match runtimeDirBody w with
    | (Except.ok dir, effs) => ((dir, none), effs, ⟨true, dir⟩)
    | (Except.error e, effs) => (("", some e), effs, ⟨true, st.cachedDir⟩)

/-- The mode `0700|os.ModeSticky` passed to `os.Mkdir` and `os.Chmod` at
source lines 157 and 160: permission bits 0700 (decimal 448) plus Go's
`os.ModeSticky` flag (bit 23 of `os.FileMode`). -/
def modeStickyDir : Nat := 448 + 8388608

/-- Model of `defaultTmpDir` (source lines 146-166).  `unshare.IsRootless()`
is the `rootless` argument.  When not rootless it returns the fixed path
immediately; otherwise it resolves the runtime directory, then makes (or
chmods, when `os.Mkdir` failed with an exists-error) the `libpod`
subdirectory with the sticky 0700 mode, and returns its `tmp`
subdirectory. -/
def defaultTmpDir (rootless : Bool) (w : World) (st : RuntimeDirState) :
    (Except GoError String × List Effect) × RuntimeDirState :=
  if !rootless then ((Except.ok "/var/run/libpod", []), st)
  else
    match getRuntimeDir w st with
    | ((_, some e), effs, st') => ((Except.error e, effs), st')
    | ((runtimeDir, none), effs, st') =>
      let libpodRuntimeDir := runtimeDir ++ "/libpod"
      match w.mkdir libpodRuntimeDir modeStickyDir with
      | MkdirResult.ok =>
          ((Except.ok (libpodRuntimeDir ++ "/tmp"),
            effs ++ [Effect.mkdir libpodRuntimeDir modeStickyDir]), st')
      | MkdirResult.errExist =>
          match w.chmod libpodRuntimeDir modeStickyDir with
          | none =>
              ((Except.ok (libpodRuntimeDir ++ "/tmp"),
                effs ++ [Effect.mkdir libpodRuntimeDir modeStickyDir,
                         Effect.chmod libpodRuntimeDir modeStickyDir]), st')
          | some e =>
              ((Except.error (GoError.wrapped ("could not set sticky bit on " ++ libpodRuntimeDir) e),
                effs ++ [Effect.mkdir libpodRuntimeDir modeStickyDir,
                         Effect.chmod libpodRuntimeDir modeStickyDir]), st')
      | MkdirResult.errOther m =>
          ((Except.error (GoError.wrapped ("cannot mkdir " ++ libpodRuntimeDir) (GoError.errorf m)),
            effs ++ [Effect.mkdir libpodRuntimeDir modeStickyDir]), st')

/-- A concrete environment in which the XDG_RUNTIME_DIR override is set. -/
def worldWithXDG : World :=
  ⟨"/custom/xdg", "/home/u", 1000, 1000, "/tmp",
   fun _ => none, fun _ => Except.error (GoError.errorf "eval"),
   fun _ _ => MkdirResult.ok, fun _ _ => none⟩

/-- A concrete environment in which every resolution strategy fails:
XDG_RUNTIME_DIR and HOME are unset and every `os.Stat` fails. -/
def badWorld : World :=
  ⟨"", "", 1000, 1000, "/tmp",
   fun _ => none, fun _ => Except.error (GoError.errorf "eval"),
   fun _ _ => MkdirResult.ok, fun _ _ => none⟩

/-- The effect trace of the failing resolution in `badWorld`. -/
def badWorldEffects : List Effect :=
  [Effect.getenv "XDG_RUNTIME_DIR",
   Effect.mkdirAll "/run/user/1000" 448, Effect.stat "/run/user/1000",
   Effect.getenv "TMPDIR", Effect.mkdirAll "/tmp/run-1000" 448,
   Effect.stat "/tmp/run-1000", Effect.getenv "HOME"]

/-- The twenty-digit Major capture used to exhibit an `Atoi` range
failure. -/
def bigDigits : List Char := List.replicate 20 '9'

theorem string_append_ne_empty_of_left (a b : String) (h : a.data ≠ []) :
    a ++ b ≠ "" := by
  intro he
  have h2 : a.data ++ b.data = [] := by
    have h3 := congrArg String.data he
    rw [String.data_append] at h3
    exact h3
  exact h (List.append_eq_nil.mp h2).1

theorem runUserDir_ne_empty (w : World) : runUserDir w ≠ "" :=
  string_append_ne_empty_of_left "/run/user/" (toString w.uid) (by decide)

theorem tmpRunDir_ne_empty (w : World) : tmpRunDir w ≠ "" := by
  have h : (w.tempDir ++ "/run-").data ≠ [] := by
    rw [String.data_append]
    intro hh
    exact absurd (List.append_eq_nil.mp hh).2 (by decide)
  exact string_append_ne_empty_of_left (w.tempDir ++ "/run-") (toString w.uid) h

theorem wrapped_ne_outdated (m : String) (e : GoError) :
    some (GoError.wrapped m e) ≠ some GoError.conmonOutdated := by
  intro h
  injection h with h
  exact GoError.noConfusion h

/-- Claim C1 (code bug): on a successful invocation whose output does not
match the version pattern (here the spec's own examples, garbage output and
empty output), `probeConmon` returns nil rather than the non-nil "version
format changed" error the specification requires: at source line 236 the
mismatch branch runs `errors.Wrap(err, _conmonVersionFormatErr)` with `err`
necessarily nil, and `pkg/errors.Wrap` of nil is nil, so the intended
format error is discarded. -/
theorem probeConmon_no_match_returns_nil :
    probeConmon (Except.ok "garbage output") = none ∧
    probeConmon (Except.ok "") = none :=
  ⟨rfl, rfl⟩

/-- Claim C9: when the invocation of the conmon binary fails,
`probeConmon` returns exactly that invocation error, which is a different
error value from `ErrConmonOutdated` and from every wrapped
"version format changed" error. -/
theorem probeConmon_invocation_error_passthrough (m : String) :
    probeConmon (Except.error (GoError.invocation m)) = some (GoError.invocation m) ∧
    GoError.invocation m ≠ GoError.conmonOutdated ∧
    ∀ (msg : String) (c : GoError), GoError.invocation m ≠ GoError.wrapped msg c := by
  refine ⟨rfl, fun h => GoError.noConfusion h, fun msg c h => GoError.noConfusion h⟩

/-- Claim C10: when the process is not rootless, `defaultTmpDir` returns
the fixed path `/var/run/libpod` with a nil error, produces no effects
(no environment reads, no filesystem operations) and leaves the
runtime-directory cache state untouched. -/
theorem defaultTmpDir_not_rootless (w : World) (st : RuntimeDirState) :
    defaultTmpDir false w st = ((Except.ok "/var/run/libpod", []), st) := rfl

/-- Claim C2 (code bug): a failing runtime-directory resolution is not
cached.  In a concrete environment where the first `getRuntimeDir` call
fails with the "no usable runtime directory" error, the second call
returns an empty path with a nil error — a different result from the first
call — because `rootlessRuntimeDirError` is local to each call (source
line 175) and only the directory string is package-level state. -/
theorem getRuntimeDir_failure_then_nil_error :
    (getRuntimeDir badWorld initialRuntimeDirState).1 =
      ("", some (GoError.errorf "neither XDG_RUNTIME_DIR nor HOME was set non-empty")) ∧
    (getRuntimeDir badWorld (getRuntimeDir badWorld initialRuntimeDirState).2.2).1 =
      ("", none) ∧
    (getRuntimeDir badWorld (getRuntimeDir badWorld initialRuntimeDirState).2.2).1 ≠
      (getRuntimeDir badWorld initialRuntimeDirState).1 := by
  refine ⟨rfl, rfl, ?_⟩
  decide

/-- Claim C4: when the first `getRuntimeDir` call fails, the once-guard
still fires and the package-level directory keeps its zero value, so every
subsequent call — under any environment — returns the empty string and a
nil error without running the resolution again (empty effect trace). -/
theorem getRuntimeDir_error_not_cached (w : World) (e : GoError) (effs : List Effect)
    (h : runtimeDirBody w = (Except.error e, effs)) :
    getRuntimeDir w initialRuntimeDirState = (("", some e), effs, ⟨true, ""⟩) ∧
    ∀ w' : World, getRuntimeDir w' ⟨true, ""⟩ = (("", none), [], ⟨true, ""⟩) := by
  constructor
  · have h0 : getRuntimeDir w initialRuntimeDirState =
        (match runtimeDirBody w with
         | (Except.ok dir, effs) => ((dir, none), effs, ⟨true, dir⟩)
         | (Except.error e, effs) => (("", some e), effs, ⟨true, ""⟩)) := rfl
    rw [h0, h]
  · intro w'
    rfl

theorem getRuntimeDir_error_not_cached_witness :
    runtimeDirBody badWorld =
      (Except.error (GoError.errorf "neither XDG_RUNTIME_DIR nor HOME was set non-empty"),
       badWorldEffects) ∧
    (getRuntimeDir badWorld initialRuntimeDirState =
      (("", some (GoError.errorf "neither XDG_RUNTIME_DIR nor HOME was set non-empty")),
       badWorldEffects, ⟨true, ""⟩) ∧
     ∀ w' : World, getRuntimeDir w' ⟨true, ""⟩ = (("", none), [], ⟨true, ""⟩)) :=
  ⟨rfl, getRuntimeDir_error_not_cached badWorld _ _ rfl⟩

/-- Claim C6: whenever the XDG_RUNTIME_DIR override is set non-empty, the
resolution returns it unchanged, its only effect is that environment read
(in particular no filesystem operation), and `getRuntimeDir` on a fresh
process state returns it with a nil error. -/
theorem runtimeDir_env_override_no_fs (w : World) (h : w.xdgRuntimeDir ≠ "") :
    runtimeDirBody w = (Except.ok w.xdgRuntimeDir, [Effect.getenv "XDG_RUNTIME_DIR"]) ∧
    (runtimeDirBody w).2.all (fun op => !op.isFsOp) = true ∧
    (getRuntimeDir w initialRuntimeDirState).1 = (w.xdgRuntimeDir, none) := by
  have h1 : runtimeDirBody w =
      (Except.ok w.xdgRuntimeDir, [Effect.getenv "XDG_RUNTIME_DIR"]) := by
    simp [runtimeDirBody, h]
  refine ⟨h1, ?_, ?_⟩
  · rw [h1]
    rfl
  · have h0 : getRuntimeDir w initialRuntimeDirState =
        (match runtimeDirBody w with
         | (Except.ok dir, effs) => ((dir, none), effs, ⟨true, dir⟩)
         | (Except.error e, effs) => (("", some e), effs, ⟨true, ""⟩)) := rfl
    rw [h0, h1]

theorem runtimeDir_env_override_no_fs_witness :
    worldWithXDG.xdgRuntimeDir ≠ "" ∧
    (runtimeDirBody worldWithXDG =
        (Except.ok worldWithXDG.xdgRuntimeDir, [Effect.getenv "XDG_RUNTIME_DIR"]) ∧
     (runtimeDirBody worldWithXDG).2.all (fun op => !op.isFsOp) = true ∧
     (getRuntimeDir worldWithXDG initialRuntimeDirState).1 =
        (worldWithXDG.xdgRuntimeDir, none)) :=
  ⟨by decide, runtimeDir_env_override_no_fs worldWithXDG (by decide)⟩

/-- Claim C5: on the first resolution the strategies are tried in order
with first success winning — the environment override, then the per-user
runtime root `/run/user/<uid>`, then the fallback `<tempdir>/run-<uid>` —
where a candidate of the second or third step is accepted exactly when
`os.Stat` succeeds, the owner uid equals the effective uid and the
permission bits are exactly 0700; and when all three strategies fail and
HOME is empty, resolution fails with the "no usable runtime directory"
error. -/
theorem runtimeDir_strategy_order (w : World) :
    (w.xdgRuntimeDir ≠ "" → (runtimeDirBody w).1 = Except.ok w.xdgRuntimeDir) ∧
    (w.xdgRuntimeDir = "" → statAccepts w (runUserDir w) = true →
      (runtimeDirBody w).1 = Except.ok (runUserDir w)) ∧
    (w.xdgRuntimeDir = "" → statAccepts w (runUserDir w) = false →
      statAccepts w (tmpRunDir w) = true →
      (runtimeDirBody w).1 = Except.ok (tmpRunDir w)) ∧
    (w.xdgRuntimeDir = "" → statAccepts w (runUserDir w) = false →
      statAccepts w (tmpRunDir w) = false → w.home = "" →
      (runtimeDirBody w).1 =
        Except.error (GoError.errorf "neither XDG_RUNTIME_DIR nor HOME was set non-empty")) ∧
    (∀ p : String, statAccepts w p = true ↔
      ∃ si : StatInfo, w.stat p = some si ∧ si.uid = w.euid ∧ si.perm = 448) := by
  refine ⟨?_, ?_, ?_, ?_, ?_⟩
  · intro h
    simp [runtimeDirBody, h]
  · intro h1 h2
    simp [runtimeDirBody, h1, h2, runUserDir_ne_empty w]
  · intro h1 h2 h3
    simp [runtimeDirBody, h1, h2, h3, tmpRunDir_ne_empty w]
  · intro h1 h2 h3 h4
    simp [runtimeDirBody, h1, h2, h3, h4]
  · intro p
    unfold statAccepts
    cases hs : w.stat p with
    | none => simp
    | some si =>
        constructor
        · intro hb
          have h1 : si.uid = w.euid ∧ si.perm = 448 := by
            simpa using hb
          exact ⟨si, rfl, h1.1, h1.2⟩
        · rintro ⟨si', hsi, hu, hp⟩
          injection hsi with hsi2
          subst hsi2
          simp [hu, hp]

theorem runtimeDir_strategy_order_witness :
    worldWithXDG.xdgRuntimeDir ≠ "" ∧
    (runtimeDirBody worldWithXDG).1 = Except.ok worldWithXDG.xdgRuntimeDir :=
  ⟨by decide, (runtimeDir_strategy_order worldWithXDG).1 (by decide)⟩

/-- Claim C3: whenever the output matches the pattern and all three
captured groups parse as integers, `probeConmon` accepts (returns nil)
exactly when the parsed triple is lexicographically at least the required
minimum `(2, 0, 1)`, and otherwise rejects with `ErrConmonOutdated`. -/
theorem probeConmon_accepts_iff_min_version (out : String) (ma mi pa : List Char)
    (major minor patch : Int)
    (hfind : findConmonSubmatch out = some (ma, mi, pa))
    (hma : goAtoi ma = Except.ok major) (hmi : goAtoi mi = Except.ok minor)
    (hpa : goAtoi pa = Except.ok patch) :
    probeConmon (Except.ok out) =
      if lexGE major minor patch _conmonMinMajorVersion _conmonMinMinorVersion
          _conmonMinPatchVersion then none
      else some GoError.conmonOutdated := by
  simp only [probeConmon, hfind, hma, hmi, hpa]
  simp only [lexGE, _conmonMinMajorVersion, _conmonMinMinorVersion, _conmonMinPatchVersion]
  split_ifs <;> first | rfl | (exfalso; omega)

theorem probeConmon_accepts_iff_min_version_witness :
    findConmonSubmatch "conmon version 2.0.1" = some (['2'], ['0'], ['1']) ∧
    goAtoi ['2'] = Except.ok 2 ∧ goAtoi ['0'] = Except.ok 0 ∧ goAtoi ['1'] = Except.ok 1 ∧
    probeConmon (Except.ok "conmon version 2.0.1") =
      (if lexGE 2 0 1 _conmonMinMajorVersion _conmonMinMinorVersion _conmonMinPatchVersion
       then none else some GoError.conmonOutdated) :=
  ⟨rfl, rfl, rfl, rfl,
   probeConmon_accepts_iff_min_version "conmon version 2.0.1" ['2'] ['0'] ['1'] 2 0 1
     rfl rfl rfl rfl⟩

/-- Claim C8: whenever the output matches the pattern and `strconv.Atoi`
fails on the captured group that `probeConmon` is parsing (the Minor and
Patch groups are only parsed when every earlier group parsed and tied with
its required component), the result is the wrapped "version format
changed" error, never `ErrConmonOutdated`. -/
theorem probeConmon_atoi_failure_format_err (out : String) (ma mi pa : List Char)
    (hfind : findConmonSubmatch out = some (ma, mi, pa)) :
    (∀ e : GoError, goAtoi ma = Except.error e →
      probeConmon (Except.ok out) = some (GoError.wrapped _conmonVersionFormatErr e) ∧
      probeConmon (Except.ok out) ≠ some GoError.conmonOutdated) ∧
    (∀ (e : GoError) (major : Int), goAtoi ma = Except.ok major →
      major = _conmonMinMajorVersion → goAtoi mi = Except.error e →
      probeConmon (Except.ok out) = some (GoError.wrapped _conmonVersionFormatErr e) ∧
      probeConmon (Except.ok out) ≠ some GoError.conmonOutdated) ∧
    (∀ (e : GoError) (major minor : Int), goAtoi ma = Except.ok major →
      major = _conmonMinMajorVersion → goAtoi mi = Except.ok minor →
      minor = _conmonMinMinorVersion → goAtoi pa = Except.error e →
      probeConmon (Except.ok out) = some (GoError.wrapped _conmonVersionFormatErr e) ∧
      probeConmon (Except.ok out) ≠ some GoError.conmonOutdated) := by
  refine ⟨?_, ?_, ?_⟩
  · intro e he
    have hp : probeConmon (Except.ok out) =
        some (GoError.wrapped _conmonVersionFormatErr e) := by
      simp [probeConmon, hfind, he, errWrap]
    exact ⟨hp, hp ▸ wrapped_ne_outdated _ e⟩
  · intro e major hma hmaj he
    subst hmaj
    have hp : probeConmon (Except.ok out) =
        some (GoError.wrapped _conmonVersionFormatErr e) := by
      simp [probeConmon, hfind, hma, he, errWrap, _conmonMinMajorVersion]
    exact ⟨hp, hp ▸ wrapped_ne_outdated _ e⟩
  · intro e major minor hma hmaj hmi hmin he
    subst hmaj
    subst hmin
    have hp : probeConmon (Except.ok out) =
        some (GoError.wrapped _conmonVersionFormatErr e) := by
      simp [probeConmon, hfind, hma, hmi, he, errWrap, _conmonMinMajorVersion,
        _conmonMinMinorVersion]
    exact ⟨hp, hp ▸ wrapped_ne_outdated _ e⟩

theorem probeConmon_invocation_error_passthrough_witness :
    probeConmon (Except.error (GoError.invocation "exec failed")) =
      some (GoError.invocation "exec failed") ∧
    GoError.invocation "exec failed" ≠ GoError.conmonOutdated ∧
    GoError.invocation "exec failed" ≠
      GoError.wrapped _conmonVersionFormatErr GoError.conmonOutdated :=
  ⟨(probeConmon_invocation_error_passthrough "exec failed").1,
   (probeConmon_invocation_error_passthrough "exec failed").2.1,
   (probeConmon_invocation_error_passthrough "exec failed").2.2 _ _⟩

theorem defaultTmpDir_not_rootless_witness :
    defaultTmpDir false badWorld initialRuntimeDirState =
      ((Except.ok "/var/run/libpod", []), initialRuntimeDirState) :=
  defaultTmpDir_not_rootless badWorld initialRuntimeDirState

theorem tryLens_eq_some {α : Type} (cs : List Char)
    (cont : List Char → List Char → Option α) :
    ∀ (k : Nat) (r : α), tryLens cs cont k = some r →
      ∃ j, 1 ≤ j ∧ j ≤ k ∧ cont (cs.take j) (cs.drop j) = some r := by
  intro k
  induction k with
  | zero =>
      intro r h
      simp [tryLens] at h
  | succ k ih =>
      intro r h
      simp only [tryLens] at h
      cases hc : cont (cs.take (k + 1)) (cs.drop (k + 1)) with
      | some r' =>
          rw [hc] at h
          injection h with h2
          subst h2
          exact ⟨k + 1, Nat.succ_le_succ (Nat.zero_le k), Nat.le_refl _, hc⟩
      | none =>
          rw [hc] at h
          obtain ⟨j, h1, h2, h3⟩ := ih r h
          exact ⟨j, h1, Nat.le_succ_of_le h2, h3⟩

theorem tryLens_first {α : Type} (cs : List Char)
    (cont : List Char → List Char → Option α) (k : Nat) (r : α) (hk : 1 ≤ k)
    (h : cont (cs.take k) (cs.drop k) = some r) : tryLens cs cont k = some r := by
  cases k with
  | zero => exact absurd hk (by omega)
  | succ k =>
      simp only [tryLens]
      rw [h]

theorem trySep_eq_some {α : Type} (cs : List Char) (k : List Char → Option α) (r : α)
    (h : trySep cs k = some r) :
    ∃ c rest, cs = c :: rest ∧ c ≠ '\n' ∧ k rest = some r := by
  cases cs with
  | nil => simp [trySep] at h
  | cons c rest =>
      by_cases hc : c = '\n'
      · simp [trySep, hc] at h
      · refine ⟨c, rest, rfl, hc, ?_⟩
        simpa [trySep, hc] using h

theorem trySep_cons {α : Type} (c : Char) (rest : List Char) (k : List Char → Option α)
    (hc : c ≠ '\n') : trySep (c :: rest) k = k rest := by
  simp [trySep, hc]

theorem length_takeWhile_le' (p : Char → Bool) :
    ∀ l : List Char, (l.takeWhile p).length ≤ l.length := by
  intro l
  induction l with
  | nil => simp
  | cons c l ih =>
      by_cases hc : p c
      · rw [List.takeWhile_cons_of_pos hc]
        simpa using ih
      · rw [List.takeWhile_cons_of_neg hc]
        simp

theorem all_take_of_le_takeWhile (p : Char → Bool) :
    ∀ (cs : List Char) (j : Nat), j ≤ (cs.takeWhile p).length →
      (cs.take j).all p = true := by
  intro cs
  induction cs with
  | nil =>
      intro j h
      simp
  | cons c cs ih =>
      intro j h
      by_cases hc : p c
      · rw [List.takeWhile_cons_of_pos hc] at h
        cases j with
        | zero => rfl
        | succ j =>
            have h2 : j ≤ (cs.takeWhile p).length := by
              simp at h
              omega
            simp [List.take_succ_cons, List.all_cons, hc, ih j h2]
      · rw [List.takeWhile_cons_of_neg hc] at h
        have h0 : j = 0 := by
          simp at h
          omega
        subst h0
        rfl

theorem takeWhile_append_sep (p : Char → Bool) :
    ∀ (a : List Char) (s : Char) (t : List Char), a.all p = true → p s = false →
      (a ++ s :: t).takeWhile p = a := by
  intro a
  induction a with
  | nil =>
      intro s t _ hs
      simp only [List.nil_append]
      rw [List.takeWhile_cons_of_neg (by simp [hs])]
  | cons c a ih =>
      intro s t ha hs
      have h1 : p c = true ∧ a.all p = true := by simpa using ha
      simp only [List.cons_append]
      rw [List.takeWhile_cons_of_pos h1.1, ih s t h1.2 hs]

theorem takeWhile_of_all (p : Char → Bool) :
    ∀ l : List Char, l.all p = true → l.takeWhile p = l := by
  intro l
  induction l with
  | nil => intro _; rfl
  | cons c l ih =>
      intro h
      have h1 : p c = true ∧ l.all p = true := by simpa using h
      rw [List.takeWhile_cons_of_pos h1.1, ih h1.2]

theorem take_ne_nil_of_digits (cs : List Char) (j : Nat) (hj : 1 ≤ j)
    (hle : j ≤ digitsLen cs) : cs.take j ≠ [] := by
  apply List.ne_nil_of_length_pos
  rw [List.length_take]
  have h1 : j ≤ cs.length :=
    Nat.le_trans hle (length_takeWhile_le' Char.isDigit cs)
  omega

/-- Claim C7 (counterexample): an output whose three integers are
separated by a character other than a dot is nevertheless matched by the
pattern, with captured groups 2, 0 and 1, because the dots in the pattern
of source line 232 are unescaped and so match any character — refuting the
claim that such outputs are rejected as not matching. -/
theorem conmon_parser_accepts_nondot_sep :
    findConmonSubmatch "conmon version 2a0a1" = some (['2'], ['0'], ['1']) := by
  decide

/-- Claim C7 (amended): the parser matches an output exactly when it
begins with the literal prefix "conmon version " followed by a base-10
integer, a single non-newline separator character, a second integer,
another single non-newline separator, and a third integer; the separators
are not required to be dots, because the dots in the pattern are
unescaped.  Soundness: every match decomposes the output that way with
nonempty digit captures.  Completeness: every output of that form with
non-digit separators matches, capturing the three integers. -/
theorem conmon_parser_shape :
    (∀ (out : String) (ma mi pa : List Char),
      findConmonSubmatch out = some (ma, mi, pa) →
      ma ≠ [] ∧ ma.all Char.isDigit = true ∧
      mi ≠ [] ∧ mi.all Char.isDigit = true ∧
      pa ≠ [] ∧ pa.all Char.isDigit = true ∧
      ∃ (s1 s2 : Char) (rest : List Char), s1 ≠ '\n' ∧ s2 ≠ '\n' ∧
        out.toList = conmonVersionLit ++ (ma ++ s1 :: (mi ++ s2 :: (pa ++ rest)))) ∧
    (∀ (a b c : List Char) (s1 s2 : Char),
      a ≠ [] → a.all Char.isDigit = true →
      b ≠ [] → b.all Char.isDigit = true →
      c ≠ [] → c.all Char.isDigit = true →
      Char.isDigit s1 = false → s1 ≠ '\n' →
      Char.isDigit s2 = false → s2 ≠ '\n' →
      findConmonSubmatch (String.mk (conmonVersionLit ++ (a ++ s1 :: (b ++ s2 :: c)))) =
        some (a, b, c)) := by
  constructor
  · intro out ma mi pa h
    have h0 : (if out.toList.take conmonVersionLit.length = conmonVersionLit then
        matchTriple (out.toList.drop conmonVersionLit.length) else none) =
        some (ma, mi, pa) := h
    by_cases hpre : out.toList.take conmonVersionLit.length = conmonVersionLit
    case neg =>
      rw [if_neg hpre] at h0
      exact absurd h0 (by simp)
    rw [if_pos hpre] at h0
    obtain ⟨j1, hj1a, hj1b, h1⟩ := tryLens_eq_some _ _ _ _ h0
    have h1' : trySep ((out.toList.drop conmonVersionLit.length).drop j1)
        (minorPart ((out.toList.drop conmonVersionLit.length).take j1)) =
        some (ma, mi, pa) := h1
    obtain ⟨s1, rest2, hsplit1, hs1, h2⟩ := trySep_eq_some _ _ _ h1'
    have h2' : tryLens rest2
        (minorSeps ((out.toList.drop conmonVersionLit.length).take j1))
        (digitsLen rest2) = some (ma, mi, pa) := h2
    obtain ⟨j2, hj2a, hj2b, h3⟩ := tryLens_eq_some _ _ _ _ h2'
    have h3' : trySep (rest2.drop j2)
        (patchCont ((out.toList.drop conmonVersionLit.length).take j1) (rest2.take j2)) =
        some (ma, mi, pa) := h3
    obtain ⟨s2, rest4, hsplit2, hs2, h4⟩ := trySep_eq_some _ _ _ h3'
    by_cases hp : rest4.takeWhile Char.isDigit = []
    case pos =>
      rw [patchCont, if_pos hp] at h4
      exact absurd h4 (by simp)
    rw [patchCont, if_neg hp] at h4
    injection h4 with h4
    have hma : ma = (out.toList.drop conmonVersionLit.length).take j1 :=
      (congrArg (fun q => q.1) h4).symm
    have hmi : mi = rest2.take j2 :=
      (congrArg (fun q => q.2.1) h4).symm
    have hpa : pa = rest4.takeWhile Char.isDigit :=
      (congrArg (fun q => q.2.2) h4).symm
    refine ⟨?_, ?_, ?_, ?_, ?_, ?_, s1, s2, rest4.dropWhile Char.isDigit, hs1, hs2, ?_⟩
    · rw [hma]
      exact take_ne_nil_of_digits _ j1 hj1a hj1b
    · rw [hma]
      exact all_take_of_le_takeWhile Char.isDigit _ j1 hj1b
    · rw [hmi]
      exact take_ne_nil_of_digits _ j2 hj2a hj2b
    · rw [hmi]
      exact all_take_of_le_takeWhile Char.isDigit _ j2 hj2b
    · rw [hpa]
      exact hp
    · rw [hpa]
      exact List.all_takeWhile
    · have e1 : out.toList =
          conmonVersionLit ++ out.toList.drop conmonVersionLit.length := by
        conv_lhs => rw [← List.take_append_drop conmonVersionLit.length out.toList]
        rw [hpre]
      have e2 : out.toList.drop conmonVersionLit.length =
          ma ++ s1 :: rest2 := by
        conv_lhs => rw [← List.take_append_drop j1 (out.toList.drop conmonVersionLit.length)]
        rw [hsplit1, ← hma]
      have e3 : rest2 = mi ++ s2 :: rest4 := by
        conv_lhs => rw [← List.take_append_drop j2 rest2]
        rw [hsplit2, ← hmi]
      rw [e1, e2, e3, hpa, List.takeWhile_append_dropWhile]
  · intro a b c s1 s2 haN ha hbN hb hcN hc hs1d hs1n hs2d hs2n
    have hgoal : matchTriple (a ++ s1 :: (b ++ s2 :: c)) = some (a, b, c) := by
      unfold matchTriple
      have hdX : digitsLen (a ++ s1 :: (b ++ s2 :: c)) = a.length := by
        unfold digitsLen
        rw [takeWhile_append_sep Char.isDigit a s1 _ ha hs1d]
      rw [hdX]
      apply tryLens_first
      · exact List.length_pos.mpr haN
      · rw [List.take_left, List.drop_left]
        have h5 : majorSep a (s1 :: (b ++ s2 :: c)) =
            minorPart a (b ++ s2 :: c) := by
          unfold majorSep
          rw [trySep_cons _ _ _ hs1n]
        rw [h5]
        unfold minorPart
        have hdY : digitsLen (b ++ s2 :: c) = b.length := by
          unfold digitsLen
          rw [takeWhile_append_sep Char.isDigit b s2 _ hb hs2d]
        rw [hdY]
        apply tryLens_first
        · exact List.length_pos.mpr hbN
        · rw [List.take_left, List.drop_left]
          have h6 : minorSeps a b (s2 :: c) = patchCont a b c := by
            unfold minorSeps
            rw [trySep_cons _ _ _ hs2n]
          rw [h6]
          unfold patchCont
          rw [takeWhile_of_all Char.isDigit c hc, if_neg hcN]
    have htl : (String.mk (conmonVersionLit ++ (a ++ s1 :: (b ++ s2 :: c)))).toList =
        conmonVersionLit ++ (a ++ s1 :: (b ++ s2 :: c)) := rfl
    have hres : findConmonSubmatch
        (String.mk (conmonVersionLit ++ (a ++ s1 :: (b ++ s2 :: c)))) =
        (if (conmonVersionLit ++ (a ++ s1 :: (b ++ s2 :: c))).take conmonVersionLit.length =
            conmonVersionLit then
          matchTriple ((conmonVersionLit ++ (a ++ s1 :: (b ++ s2 :: c))).drop
            conmonVersionLit.length)
        else none) := rfl
    rw [hres, if_pos (List.take_left _ _), List.drop_left]
    exact hgoal

theorem conmon_parser_shape_witness :
    (['2'] : List Char) ≠ [] ∧ (['2'] : List Char).all Char.isDigit = true ∧
    (['0'] : List Char) ≠ [] ∧ (['0'] : List Char).all Char.isDigit = true ∧
    (['1'] : List Char) ≠ [] ∧ (['1'] : List Char).all Char.isDigit = true ∧
    Char.isDigit '.' = false ∧ '.' ≠ '\n' ∧
    findConmonSubmatch
      (String.mk (conmonVersionLit ++ (['2'] ++ '.' :: (['0'] ++ '.' :: ['1'])))) =
      some (['2'], ['0'], ['1']) :=
  ⟨by decide, by decide, by decide, by decide, by decide, by decide, by decide, by decide,
   conmon_parser_shape.2 ['2'] ['0'] ['1'] '.' '.'
     (by decide) (by decide) (by decide) (by decide) (by decide) (by decide)
     (by decide) (by decide) (by decide) (by decide)⟩

theorem probeConmon_atoi_failure_format_err_witness :
    findConmonSubmatch "conmon version 99999999999999999999.0.0" =
      some (bigDigits, ['0'], ['0']) ∧
    goAtoi bigDigits = Except.error (GoError.numError (String.mk bigDigits)) ∧
    (probeConmon (Except.ok "conmon version 99999999999999999999.0.0") =
      some (GoError.wrapped _conmonVersionFormatErr (GoError.numError (String.mk bigDigits))) ∧
     probeConmon (Except.ok "conmon version 99999999999999999999.0.0") ≠
      some GoError.conmonOutdated) :=
  ⟨rfl, rfl,
   (probeConmon_atoi_failure_format_err "conmon version 99999999999999999999.0.0"
      bigDigits ['0'] ['0'] rfl).1 (GoError.numError (String.mk bigDigits)) rfl⟩

end LibpodConfig
